import Mathlib

/-!
Verification of the open-r1 repository: a shallow embedding of
src/scripts/generate_agent_traces.py (the bounded-concurrency, resumable
trace-generation loop) and of the reward scorers exercised by
src/tests/test_rewards.py, together with theorems settling the spec claims.

Conventions: machine integers are Nat; rationals (ℚ) stand for Python
floats, all arithmetic involved being exact; Python exceptions are
modelled with Except; the md5 hexdigest is carried as an abstract
parameter hash : String → String; JSON field values are represented by
their str() image, which is all the script ever computes from them.
-/

/-- A work item: one dataset example, reduced to the two fields the script
reads. uuidVal is the str() image of example[args.uuid_column] (lines 145
and 195 of generate_agent_traces.py) and prompt the prompt column
(line 94). All other original fields are passed through unchanged and play
no role in any claim. -/
structure WorkItem where
  uuidVal : String
  prompt : String
deriving DecidableEq

/-- An agent transcript: the value of agent.write_memory_to_messages()
returned by get_agent_run on success (line 87), abstract here. -/
abbrev AgentMessages := String

/-- One record line of the output store as written by process_example
(lines 115-126): the original item plus the list of generations and the
two placeholder lists (always null, lines 111-112). -/
structure TraceRecord where
  item : WorkItem
  generations : List (Option AgentMessages)
  finishReasons : List (Option Unit)
  apiMetadata : List (Option Unit)
deriving DecidableEq

/-- The result dict built by process_example on lines 115-120: the original
example fields together with generations and the two all-null placeholder
lists (one entry per generation, lines 109-112). -/
def mkRecord (ex : WorkItem) (runs : List (Option AgentMessages)) : TraceRecord :=
  ⟨ex, runs, runs.map (fun _ => none), runs.map (fun _ => none)⟩

/-- Model of process_example (lines 93-135). Its input runs is the list
gathered from the N = args.num_generations get_agent_run tasks (lines
96-98); each failed run is the None sentinel (get_agent_run catches its own
exceptions and returns None, lines 88-90). If any run is None the function
returns None and writes nothing (lines 100-103); otherwise it appends the
result record to the output store under the file lock and returns it
(lines 122-131). The except path (lines 132-135) likewise returns None
with the store unchanged. The pair returned is (output store after the
call, Python return value). -/
def process_example (ex : WorkItem) (runs : List (Option AgentMessages))
    (store : List TraceRecord) : List TraceRecord × Option TraceRecord :=
  if runs.any (fun r => r.isNone) then (store, none)
  else (store ++ [mkRecord ex runs], some (mkRecord ex runs))

/-- C1: All-or-nothing persistence. For every work item processed by
process_example, if any of the N agent-run generations returned the
failure sentinel None then the output store is left unchanged (no record
is appended) and the item yields None; conversely, whenever the store
changed at all, every generation succeeded, and when all N generations
succeed exactly the one result record is appended. -/
theorem c1_all_or_nothing (ex : WorkItem) (runs : List (Option AgentMessages))
    (store : List TraceRecord) :
    ((∃ r ∈ runs, r = none) → process_example ex runs store = (store, none)) ∧
    ((process_example ex runs store).1 ≠ store → ∀ r ∈ runs, r.isSome = true) ∧
    ((∀ r ∈ runs, r.isSome = true) →
      process_example ex runs store = (store ++ [mkRecord ex runs], some (mkRecord ex runs))) := by
  by_cases h : runs.any (fun r => r.isNone) = true
  · obtain ⟨r, hr, hrn⟩ := List.any_eq_true.mp h
    have hrn' : r = none := Option.isNone_iff_eq_none.mp hrn
    refine ⟨fun _ => by simp [process_example, h], ?_, ?_⟩
    · intro hne
      exact absurd (by simp [process_example, h]) hne
    · intro hall
      have := hall r hr
      rw [hrn'] at this
      simp at this
  · have h' : ¬ ∃ r ∈ runs, r = none := by
      intro ⟨r, hr, hrn⟩
      exact h (List.any_eq_true.mpr ⟨r, hr, by simp [hrn]⟩)
    have hfalse : runs.any (fun r => r.isNone) = false := by
      rcases Bool.eq_false_or_eq_true (runs.any (fun r => r.isNone)) with hb | hb
      · exact absurd hb h
      · exact hb
    refine ⟨fun hx => absurd hx h', ?_, fun _ => by simp [process_example, hfalse]⟩
    intro _ r hr
    cases hre : r with
    | some v => simp
    | none => exact absurd ⟨r, hr, hre⟩ h'

/-- C1 witness: a concrete fan-out of two runs whose second generation
failed leaves a concrete (empty) store unchanged. -/
theorem c1_all_or_nothing_witness :
    (∃ r ∈ [some "trace", (none : Option AgentMessages)], r = none) ∧
    process_example ⟨"A", "p"⟩ [some "trace", none] [] = ([], none) :=
  ⟨⟨none, by simp, rfl⟩,
    (c1_all_or_nothing ⟨"A", "p"⟩ [some "trace", none] []).1 ⟨none, by simp, rfl⟩⟩

/-- What the environment does to one attempt of
generate_completion_from_messages (lines 44-57): either the request raises
some exception (session.post failing, timeouts, ...), or an HTTP response
arrives with some status code and a body that either parses as JSON
(response.json(content_type=None) succeeding with payload p) or raises a
parse error. The msg strings carry the arbitrary exception text. -/
inductive AttemptOutcome where
  | raised (msg : String)
  | responded (status : Nat) (body : Except String String)

/-- An attempt fails exactly when the code's except branch (line 58) runs:
the request raised, or the body failed to parse as JSON. -/
def outcomeFails : AttemptOutcome → Bool
  | .raised _ => true
  | .responded _ (.error _) => true
  | .responded _ (.ok _) => false

/-- Observable events of generate_completion_from_messages: a sleep of d
seconds (line 45 jitter, line 61 backoff) or the i-th request attempt
(lines 46-56). -/
inductive CallEv where
  | sleep (d : ℚ)
  | attempt (i : Nat)
deriving DecidableEq

/-- The retry loop of generate_completion_from_messages (lines 43-62),
recursing on the remaining retry budget with i the index of the next
attempt. Each iteration sleeps the jitter drawn by
random.uniform(0.0, 0.1) (line 45, modelled by the environment-supplied
jitter i), performs the attempt, and returns the parsed body on success
(line 57); on any exception it decrements the budget and sleeps the fixed
10-second backoff (lines 58-61). Returns the event trace and the Python
return value. -/
def retryLoop (env : Nat → AttemptOutcome) (jitter : Nat → ℚ) :
    Nat → Nat → List CallEv × Option String
  | 0, _ => ([], none)
  | Nat.succ b, i =>
    match env i with
    | .responded _ (.ok p) => ([CallEv.sleep (jitter i), CallEv.attempt i], some p)
    | _ =>
      let rest := retryLoop env jitter b (i + 1)
      (CallEv.sleep (jitter i) :: CallEv.attempt i :: CallEv.sleep 10 :: rest.1, rest.2)

/-- Model of generate_completion_from_messages (lines 41-62): the retry
loop entered with retry_budget = 10 (line 42) at attempt 0. -/
def generate_completion_from_messages (env : Nat → AttemptOutcome)
    (jitter : Nat → ℚ) : List CallEv × Option String :=
  retryLoop env jitter 10 0

/-- Spec-side description of the event trace produced by k consecutive
failed attempts starting at index i: jitter sleep, the attempt, then the
fixed 10-second backoff, k times over. Used only to state what the
source-modelled retryLoop emits. -/
def failTrace (jitter : Nat → ℚ) : Nat → Nat → List CallEv
  | _, 0 => []
  | i, Nat.succ k =>
    CallEv.sleep (jitter i) :: CallEv.attempt i :: CallEv.sleep 10 ::
      failTrace jitter (i + 1) k

/-- Helper: a prefix of k failing attempts unfolds the retry loop into k
failure blocks followed by the loop on the remaining budget. -/
theorem retryLoop_fail_blocks (env : Nat → AttemptOutcome) (jitter : Nat → ℚ) :
    ∀ (k b i : Nat), (∀ j, j < k → outcomeFails (env (i + j)) = true) →
      retryLoop env jitter (k + b) i =
        (failTrace jitter i k ++ (retryLoop env jitter b (i + k)).1,
          (retryLoop env jitter b (i + k)).2) := by
  intro k
  induction k with
  | zero =>
    intro b i _
    simp [failTrace]
  | succ k ih =>
    intro b i hfail
    have h0 : outcomeFails (env i) = true := by
      have := hfail 0 (Nat.succ_pos k)
      simpa using this
    have hk : ∀ j, j < k → outcomeFails (env (i + 1 + j)) = true := by
      intro j hj
      have := hfail (j + 1) (Nat.succ_lt_succ hj)
      have harith : i + (j + 1) = i + 1 + j := by omega
      rwa [harith] at this
    have hstep : retryLoop env jitter (k + 1 + b) i =
        (CallEv.sleep (jitter i) :: CallEv.attempt i :: CallEv.sleep 10 ::
          (retryLoop env jitter (k + b) (i + 1)).1,
          (retryLoop env jitter (k + b) (i + 1)).2) := by
      have hkb : k + 1 + b = Nat.succ (k + b) := by omega
      rw [hkb]
      cases henv : env i with
      | raised msg => simp [retryLoop, henv]
      | responded status body =>
        cases body with
        | ok p => rw [henv] at h0; simp [outcomeFails] at h0
        | error e => simp [retryLoop, henv]
    rw [hstep, ih b (i + 1) hk]
    have harith : i + 1 + k = i + (k + 1) := by omega
    rw [harith]
    simp [failTrace]

/-- C5: Retrying request executor. For every environment (arbitrary
exception messages and response bodies) and every jitter sequence drawn by
random.uniform(0.0, 0.1): (a) if the first 10 attempts all raise or fail
to parse, the call makes exactly 10 attempts, each preceded by its jitter
sleep and followed by the fixed 10-second backoff, and returns the failure
sentinel None rather than raising; (b) if the first k attempts (k < 10)
fail and attempt k returns a body that parses as p, the call retries
through the k failures (decrementing the budget that started at 10) and
returns some p after the k failure blocks and one final
jitter-sleep-then-attempt. Every exception message is retried alike. -/
theorem c5_retry_executor (env : Nat → AttemptOutcome) (jitter : Nat → ℚ) :
    ((∀ i, i < 10 → outcomeFails (env i) = true) →
      generate_completion_from_messages env jitter = (failTrace jitter 0 10, none)) ∧
    (∀ k status p, k < 10 → (∀ i, i < k → outcomeFails (env i) = true) →
      env k = AttemptOutcome.responded status (Except.ok p) →
      generate_completion_from_messages env jitter =
        (failTrace jitter 0 k ++ [CallEv.sleep (jitter k), CallEv.attempt k], some p)) := by
  constructor
  · intro hfail
    have h := retryLoop_fail_blocks env jitter 10 0 0 (by
      intro j hj
      simpa using hfail j hj)
    simpa [generate_completion_from_messages, retryLoop] using h
  · intro k status p hk hfail henv
    have hsplit : (10 : Nat) = k + (10 - k) := by omega
    have h := retryLoop_fail_blocks env jitter k (10 - k) 0 (by
      intro j hj
      simpa using hfail j hj)
    have hrest : retryLoop env jitter (10 - k) (0 + k) =
        ([CallEv.sleep (jitter k), CallEv.attempt k], some p) := by
      have hkpos : 10 - k = Nat.succ (10 - k - 1) := by omega
      rw [hkpos]
      simp [retryLoop, henv]
    rw [generate_completion_from_messages, hsplit, h, hrest]

/-- C5 witness: an environment whose first two attempts raise and whose
third responds with parseable JSON yields the sentinel trace promised by
the theorem; the hypothesis of ten failures is instantiated on an
always-raising environment as well. -/
theorem c5_retry_executor_witness :
    ((∀ i, i < 10 → outcomeFails ((fun _ => AttemptOutcome.raised "boom") i) = true) ∧
      generate_completion_from_messages (fun _ => AttemptOutcome.raised "boom") (fun _ => 0) =
        (failTrace (fun _ => 0) 0 10, none)) ∧
    generate_completion_from_messages
        (fun i => if i < 2 then AttemptOutcome.raised "boom"
          else AttemptOutcome.responded 200 (Except.ok "body")) (fun _ => 0) =
      (failTrace (fun _ => 0) 0 2 ++ [CallEv.sleep 0, CallEv.attempt 2], some "body") := by
  refine ⟨⟨by intro i _; rfl, ?_⟩, ?_⟩
  · exact (c5_retry_executor (fun _ => AttemptOutcome.raised "boom") (fun _ => 0)).1
      (by intro i _; rfl)
  · exact (c5_retry_executor _ (fun _ => 0)).2 2 200 "body" (by omega)
      (by intro i hi; simp [hi, outcomeFails]) (by simp)

/-- C10: implicit claim on generate_completion_from_messages. Any response
whose body parses as JSON is returned as the result, whatever the HTTP
status code: for every status (500 included) a first attempt responding
with parseable payload p ends the call at once with some p, after a single
jitter sleep and a single attempt, with no backoff sleep and no further
attempt, so the retry budget is untouched; only raised exceptions (or
unparseable bodies) enter the retry branch. -/
theorem c10_status_ignored (env : Nat → AttemptOutcome) (jitter : Nat → ℚ)
    (status : Nat) (p : String)
    (h : env 0 = AttemptOutcome.responded status (Except.ok p)) :
    generate_completion_from_messages env jitter =
      ([CallEv.sleep (jitter 0), CallEv.attempt 0], some p) := by
  simp [generate_completion_from_messages, retryLoop, h]

/-- C10 witness: a one-shot environment answering HTTP 500 with a JSON
body is accepted as a success on the first attempt. -/
theorem c10_status_ignored_witness :
    generate_completion_from_messages
        (fun _ => AttemptOutcome.responded 500 (Except.ok "err-json")) (fun _ => 0) =
      ([CallEv.sleep 0, CallEv.attempt 0], some "err-json") :=
  c10_status_ignored (fun _ => AttemptOutcome.responded 500 (Except.ok "err-json"))
    (fun _ => 0) 500 "err-json" rfl

/-- One line of the output file as json.loads sees it (lines 142-147):
either the line fails to parse (json.loads raises JSONDecodeError), or it
parses to a non-subscriptable JSON value (a number, a string, ...), or it
parses to an object, modelled as its field list with values reduced to
their str() image. -/
inductive JsonLine where
  | invalid
  | scalar
  | record (fields : List (String × String))
deriving DecidableEq

/-- Model of load_processed_uuids (lines 138-148), parameterised by the
md5-hexdigest function hsh. For each line: a JSONDecodeError is caught and
the line skipped (lines 146-147); a line whose JSON value is not an object
makes data[uuid_column] raise an uncaught TypeError; an object without the
uuid column raises an uncaught KeyError; otherwise
hsh(str(data[uuid_column])) joins the set (line 145). An uncaught error
aborts the whole scan (Except.error); a missing output file is the empty
line list. -/
def load_processed_uuids (hsh : String → String) (uuidColumn : String) :
    List JsonLine → Except String (Finset String)
  | [] => Except.ok ∅
  | line :: rest =>
    match line with
    | JsonLine.invalid => load_processed_uuids hsh uuidColumn rest
    | JsonLine.scalar => Except.error "TypeError"
    | JsonLine.record fields =>
      match fields.lookup uuidColumn with
      | none => Except.error "KeyError"
      | some v =>
        match load_processed_uuids hsh uuidColumn rest with
        | Except.error e => Except.error e
        | Except.ok s => Except.ok (insert (hsh v) s)

/-- Spec-side description for the amended C6: the key set of the lines that
parse as objects carrying the uuid column, skipping everything else. Used
only to state what load_processed_uuids returns on benign files. -/
def wellFormedKeys (hsh : String → String) (uuidColumn : String) :
    List JsonLine → Finset String
  | [] => ∅
  | JsonLine.record fields :: rest =>
    match fields.lookup uuidColumn with
    | some v => insert (hsh v) (wellFormedKeys hsh uuidColumn rest)
    | none => wellFormedKeys hsh uuidColumn rest
  | _ :: rest => wellFormedKeys hsh uuidColumn rest

/-- A line the startup scan tolerates: either it fails JSON parsing (and
is skipped) or it is an object that carries the uuid column. -/
def lineOk (uuidColumn : String) : JsonLine → Bool
  | JsonLine.invalid => true
  | JsonLine.scalar => false
  | JsonLine.record fields => (fields.lookup uuidColumn).isSome

/-- C6 counterexample: the claim says no malformed persisted line makes the
startup scan fail, but a line that parses as a JSON object lacking the
uuid column (here the object with the single field other) raises an
uncaught KeyError on line 145 and aborts load_processed_uuids, so the scan
does fail instead of returning the key set of the remaining lines. -/
theorem c6_counterexample :
    load_processed_uuids id "uuid" [JsonLine.record [("other", "x")]] =
      Except.error "KeyError" := by
  rfl

/-- C6 amended: load_processed_uuids silently skips every line that fails
JSON parsing and returns the key set of the remaining lines, provided
every line that does parse is an object carrying the uuid column; a line
that parses to anything else aborts the scan with an uncaught
TypeError/KeyError (only json.JSONDecodeError is caught, line 146). -/
theorem c6_skips_undecodable_lines (hsh : String → String) (uuidColumn : String)
    (lines : List JsonLine) (hok : ∀ l ∈ lines, lineOk uuidColumn l = true) :
    load_processed_uuids hsh uuidColumn lines =
      Except.ok (wellFormedKeys hsh uuidColumn lines) := by
  induction lines with
  | nil => rfl
  | cons line rest ih =>
    have hrest : ∀ l ∈ rest, lineOk uuidColumn l = true := by
      intro l hl
      exact hok l (List.mem_cons_of_mem line hl)
    have hline := hok line (List.mem_cons_self line rest)
    cases line with
    | invalid =>
      simpa [load_processed_uuids, wellFormedKeys] using ih hrest
    | scalar => simp [lineOk] at hline
    | record fields =>
      rcases hv : fields.lookup uuidColumn with _ | v
      · rw [lineOk, hv] at hline
        simp at hline
      · rw [load_processed_uuids, wellFormedKeys, hv, ih hrest]

/-- C6 witness: a file holding one undecodable line and one well-formed
record produces exactly the key of the record, the undecodable line being
skipped. -/
theorem c6_skips_undecodable_lines_witness :
    (∀ l ∈ [JsonLine.invalid, JsonLine.record [("uuid", "A")]], lineOk "uuid" l = true) ∧
    load_processed_uuids id "uuid" [JsonLine.invalid, JsonLine.record [("uuid", "A")]] =
      Except.ok (wellFormedKeys id "uuid" [JsonLine.invalid, JsonLine.record [("uuid", "A")]]) :=
  ⟨by decide,
    c6_skips_undecodable_lines id "uuid"
      [JsonLine.invalid, JsonLine.record [("uuid", "A")]] (by decide)⟩

/-- The key the script associates to a work item: the md5 hexdigest of the
str() image of its uuid column (line 195). -/
def exKey (hsh : String → String) (ex : WorkItem) : String := hsh ex.uuidVal

/-- The key of a persisted record, as the startup scan recomputes it from
the stored original fields (line 145). -/
def recKey (hsh : String → String) (r : TraceRecord) : String := hsh r.item.uuidVal

/-- State of the main loop (lines 179-214): the dataset examples not yet
iterated, the multiset of scheduled-but-unfinished tasks (active_tasks),
the output store, and a ghost list of every item ever scheduled, in
scheduling order. -/
structure RunState where
  remaining : List WorkItem
  inFlight : List WorkItem
  store : List TraceRecord
  sched : List WorkItem

/-- One transition of the main loop (lines 194-214), with the loaded
processed_uuids set K and the limit C = args.max_concurrent fixed for the
run (the set is never updated while the loop runs). skip drops the next
example whose key is already in K (line 196). schedule passes the guard of
the while-loop on line 198 (fewer than C tasks in flight) and creates the
task (lines 206-208). complete is one scheduled process_example task
finishing with gathered agent runs runs, at a time chosen by the
environment; its effect on the store is exactly process_example's, and the
task leaves active_tasks (line 199 / the done callback on line 208). -/
inductive LoopStep (hsh : String → String) (K : Finset String) (C : Nat) :
    RunState → RunState → Prop
  | skip (ex : WorkItem) (rest fl : List WorkItem) (st : List TraceRecord)
      (sc : List WorkItem) :
      exKey hsh ex ∈ K →
      LoopStep hsh K C ⟨ex :: rest, fl, st, sc⟩ ⟨rest, fl, st, sc⟩
  | schedule (ex : WorkItem) (rest fl : List WorkItem) (st : List TraceRecord)
      (sc : List WorkItem) :
      exKey hsh ex ∉ K → fl.length < C →
      LoopStep hsh K C ⟨ex :: rest, fl, st, sc⟩ ⟨rest, fl ++ [ex], st, sc ++ [ex]⟩
  | complete (ex : WorkItem) (runs : List (Option AgentMessages))
      (rem fl : List WorkItem) (st : List TraceRecord) (sc : List WorkItem) :
      ex ∈ fl →
      LoopStep hsh K C ⟨rem, fl, st, sc⟩
        ⟨rem, fl.erase ex, (process_example ex runs st).1, sc⟩

/-- A run: any number of loop transitions from a state. -/
def LoopReach (hsh : String → String) (K : Finset String) (C : Nat) :
    RunState → RunState → Prop :=
  Relation.ReflTransGen (LoopStep hsh K C)

/-- The state the loop starts from: the whole dataset pending, no task in
flight, the output file holding the prior run's records. -/
def initState (ds : List WorkItem) (r₀ : List TraceRecord) : RunState :=
  ⟨ds, [], r₀, []⟩

/-- The scheduling test of line 196: uuid not in processed_uuids. -/
def notProcessed (hsh : String → String) (K : Finset String) (ex : WorkItem) : Bool :=
  decide (exKey hsh ex ∉ K)

/-- Helper: the scheduled-so-far list plus the still-schedulable part of
the remaining dataset is invariant under loop steps, and scheduling only
ever adds items whose key is outside K. -/
theorem loopStep_sched_inv (hsh : String → String) (K : Finset String) (C : Nat)
    {s t : RunState} (hstep : LoopStep hsh K C s t) :
    t.sched ++ t.remaining.filter (notProcessed hsh K) =
      s.sched ++ s.remaining.filter (notProcessed hsh K) ∧
    ∀ ex ∈ t.sched, ex ∈ s.sched ∨ exKey hsh ex ∉ K := by
  cases hstep with
  | skip ex rest fl st sc hK =>
    constructor
    · have hp : notProcessed hsh K ex = false := by simp [notProcessed, hK]
      simp [List.filter_cons, hp]
    · intro e he
      exact Or.inl he
  | schedule ex rest fl st sc hK hlen =>
    constructor
    · have hp : notProcessed hsh K ex = true := by simp [notProcessed, hK]
      simp [List.filter_cons, hp]
    · intro e he
      rcases List.mem_append.mp he with h1 | h2
      · exact Or.inl h1
      · have he2 : e = ex := by simpa using h2
        subst he2
        exact Or.inr hK
  | complete ex runs rem fl st sc hmem =>
    exact ⟨rfl, fun e he => Or.inl he⟩

/-- C2: Resume correctness. If the startup scan of the prior output store
yields the key set K, then along every run of the main loop each scheduled
item has its key outside K, and once the dataset is exhausted the items
scheduled are exactly, and in order, those dataset items whose key is not
in K: the items whose key already appears in the store were skipped. -/
theorem c2_resume (hsh : String → String) (uuidColumn : String)
    (lines : List JsonLine) (K : Finset String) (ds : List WorkItem)
    (r₀ : List TraceRecord) (C : Nat) (s : RunState)
    (hload : load_processed_uuids hsh uuidColumn lines = Except.ok K)
    (hreach : LoopReach hsh K C (initState ds r₀) s) :
    (∀ ex ∈ s.sched, exKey hsh ex ∉ K) ∧
    (s.remaining = [] → s.sched = ds.filter (notProcessed hsh K)) := by
  have main : s.sched ++ s.remaining.filter (notProcessed hsh K) =
      ds.filter (notProcessed hsh K) ∧ ∀ ex ∈ s.sched, exKey hsh ex ∉ K := by
    induction hreach with
    | refl => exact ⟨by simp [initState], by simp [initState]⟩
    | tail hab hbc ih =>
      obtain ⟨ih1, ih2⟩ := ih
      obtain ⟨hinv, hnew⟩ := loopStep_sched_inv hsh K C hbc
      refine ⟨hinv.trans ih1, ?_⟩
      intro e he
      rcases hnew e he with h1 | h2
      · exact ih2 e h1
      · exact h2
  refine ⟨main.2, fun hrem => ?_⟩
  have h1 := main.1
  rw [hrem] at h1
  simpa using h1

/-- C2 witness: a prior store holding the record with key A, a dataset
with items keyed A and C, and a completed run scheduling exactly the item
keyed C; the loaded key set is discharged by computation. -/
theorem c2_resume_witness :
    load_processed_uuids id "id" [JsonLine.record [("id", "A")]] =
      Except.ok (insert "A" ∅) ∧
    (⟨[], List.erase [⟨"C", "pc"⟩] ⟨"C", "pc"⟩,
        (process_example ⟨"C", "pc"⟩ [some "t"] []).1,
        [⟨"C", "pc"⟩]⟩ : RunState).sched =
      [⟨"A", "pa"⟩, ⟨"C", "pc"⟩].filter (notProcessed id (insert "A" ∅)) := by
  have h1 : LoopStep id (insert "A" ∅) 1
      (initState [⟨"A", "pa"⟩, ⟨"C", "pc"⟩] []) ⟨[⟨"C", "pc"⟩], [], [], []⟩ :=
    LoopStep.skip ⟨"A", "pa"⟩ [⟨"C", "pc"⟩] [] [] [] (by decide)
  have h2 : LoopStep id (insert "A" ∅) 1
      ⟨[⟨"C", "pc"⟩], [], [], []⟩ ⟨[], [] ++ [⟨"C", "pc"⟩], [], [] ++ [⟨"C", "pc"⟩]⟩ :=
    LoopStep.schedule ⟨"C", "pc"⟩ [] [] [] [] (by decide) (by decide)
  have h3 : LoopStep id (insert "A" ∅) 1
      ⟨[], [] ++ [⟨"C", "pc"⟩], [], [] ++ [⟨"C", "pc"⟩]⟩
      ⟨[], List.erase ([] ++ [⟨"C", "pc"⟩]) ⟨"C", "pc"⟩,
        (process_example ⟨"C", "pc"⟩ [some "t"] []).1, [] ++ [⟨"C", "pc"⟩]⟩ :=
    LoopStep.complete ⟨"C", "pc"⟩ [some "t"] [] ([] ++ [⟨"C", "pc"⟩]) [] ([] ++ [⟨"C", "pc"⟩])
      (by decide)
  have hreach : LoopReach id (insert "A" ∅) 1
      (initState [⟨"A", "pa"⟩, ⟨"C", "pc"⟩] [])
      ⟨[], List.erase ([] ++ [⟨"C", "pc"⟩]) ⟨"C", "pc"⟩,
        (process_example ⟨"C", "pc"⟩ [some "t"] []).1, [] ++ [⟨"C", "pc"⟩]⟩ :=
    Relation.ReflTransGen.head h1 (Relation.ReflTransGen.head h2
      (Relation.ReflTransGen.single h3))
  exact ⟨rfl,
    (c2_resume id "id" [JsonLine.record [("id", "A")]] (insert "A" ∅)
      [⟨"A", "pa"⟩, ⟨"C", "pc"⟩] [] 1 _ rfl hreach).2 rfl⟩

/-- C3: At-most-C concurrency. In every state any run of the main loop can
reach, whatever the completion timing, the in-flight task set holds at
most C = args.max_concurrent tasks; moreover a transition that schedules a
new task is only possible from a state with fewer than C tasks in flight. -/
theorem c3_concurrency_bound (hsh : String → String) (K : Finset String) (C : Nat)
    (ds : List WorkItem) (r₀ : List TraceRecord) (s : RunState)
    (hreach : LoopReach hsh K C (initState ds r₀) s) :
    s.inFlight.length ≤ C ∧
    ∀ t, LoopStep hsh K C s t → t.sched ≠ s.sched → s.inFlight.length < C := by
  constructor
  · induction hreach with
    | refl => simp [initState]
    | tail hab hbc ih =>
      cases hbc with
      | skip ex rest fl st sc hK => exact ih
      | schedule ex rest fl st sc hK hlen =>
        simpa using hlen
      | complete ex runs rem fl st sc hmem =>
        exact le_trans (List.Sublist.length_le (List.erase_sublist ex fl)) ih
  · intro t hstep hsched
    cases hstep with
    | skip ex rest fl st sc hK => exact absurd rfl hsched
    | schedule ex rest fl st sc hK hlen => exact hlen
    | complete ex runs rem fl st sc hmem => exact absurd rfl hsched

/-- C3 witness: with limit 1 and a one-item dataset, the state reached
after scheduling that item keeps the in-flight set within the limit. -/
theorem c3_concurrency_bound_witness :
    LoopReach id ∅ 1 (initState [⟨"A", "p"⟩] [])
      ⟨[], [] ++ [⟨"A", "p"⟩], [], [] ++ [⟨"A", "p"⟩]⟩ ∧
    (⟨[], [] ++ [⟨"A", "p"⟩], [], [] ++ [⟨"A", "p"⟩]⟩ : RunState).inFlight.length ≤ 1 := by
  have h1 : LoopStep id ∅ 1 (initState [⟨"A", "p"⟩] [])
      ⟨[], [] ++ [⟨"A", "p"⟩], [], [] ++ [⟨"A", "p"⟩]⟩ :=
    LoopStep.schedule ⟨"A", "p"⟩ [] [] [] [] (by decide) (by decide)
  have hreach := Relation.ReflTransGen.single h1
  exact ⟨hreach, (c3_concurrency_bound id ∅ 1 [⟨"A", "p"⟩] [] _ hreach).1⟩

/-- How many records of a store carry the key k (occurrences of k among
the md5 keys the startup scan would recompute from the stored lines). -/
def storeKeyCount (hsh : String → String) (st : List TraceRecord) (k : String) : Nat :=
  (st.map (recKey hsh)).count k

/-- How many items of a list carry the key k. -/
def itemKeyCount (hsh : String → String) (l : List WorkItem) (k : String) : Nat :=
  (l.map (exKey hsh)).count k

/-- Helper: key occurrences across a cons. -/
theorem itemKeyCount_cons (hsh : String → String) (a : WorkItem) (l : List WorkItem)
    (k : String) :
    itemKeyCount hsh (a :: l) k =
      itemKeyCount hsh l k + (if exKey hsh a = k then 1 else 0) := by
  simp [itemKeyCount, List.count_cons]

/-- Helper: key occurrences after appending one item. -/
theorem itemKeyCount_append_one (hsh : String → String) (l : List WorkItem)
    (a : WorkItem) (k : String) :
    itemKeyCount hsh (l ++ [a]) k =
      itemKeyCount hsh l k + (if exKey hsh a = k then 1 else 0) := by
  simp [itemKeyCount, List.count_append, List.count_cons]

/-- Helper: key occurrences after appending one record. -/
theorem storeKeyCount_append_one (hsh : String → String) (st : List TraceRecord)
    (r : TraceRecord) (k : String) :
    storeKeyCount hsh (st ++ [r]) k =
      storeKeyCount hsh st k + (if recKey hsh r = k then 1 else 0) := by
  simp [storeKeyCount, List.count_append, List.count_cons]

/-- Helper: erasing a present item removes exactly its key occurrence. -/
theorem itemKeyCount_erase (hsh : String → String) (l : List WorkItem)
    (a : WorkItem) (k : String) (ha : a ∈ l) :
    itemKeyCount hsh l k =
      itemKeyCount hsh (l.erase a) k + (if exKey hsh a = k then 1 else 0) := by
  have hperm : l.Perm (a :: l.erase a) := List.perm_cons_erase ha
  have hcount := (hperm.map (exKey hsh)).count_eq k
  rw [itemKeyCount, hcount]
  simp [itemKeyCount, List.count_cons]

/-- The per-key accounting measure of a run state: occurrences of the key
among persisted records, among in-flight items, and (when the key is not
already in the loaded set, so its items are still schedulable) among the
dataset examples not yet iterated. -/
def keyLoad (hsh : String → String) (K : Finset String) (s : RunState)
    (k : String) : Nat :=
  storeKeyCount hsh s.store k + itemKeyCount hsh s.inFlight k +
    (if k ∈ K then 0 else itemKeyCount hsh s.remaining k)

/-- Helper: every loop transition leaves the per-key accounting measure
non-increasing. -/
theorem loopStep_keyLoad_le (hsh : String → String) (K : Finset String) (C : Nat)
    {s t : RunState} (hstep : LoopStep hsh K C s t) (k : String) :
    keyLoad hsh K t k ≤ keyLoad hsh K s k := by
  cases hstep with
  | skip ex rest fl st sc hK =>
    by_cases hk : k ∈ K
    · simp [keyLoad, hk]
    · have hne : exKey hsh ex ≠ k := fun h => hk (h ▸ hK)
      simp [keyLoad, hk, itemKeyCount_cons, hne]
  | schedule ex rest fl st sc hK hlen =>
    by_cases hk : k ∈ K
    · have hne : exKey hsh ex ≠ k := fun h => hK (h ▸ hk)
      simp [keyLoad, hk, itemKeyCount_append_one, hne]
    · simp only [keyLoad, if_neg hk, itemKeyCount_append_one, itemKeyCount_cons]
      omega
  | complete ex runs rem fl st sc hmem =>
    have hfl := itemKeyCount_erase hsh fl ex k hmem
    by_cases hruns : runs.any (fun r => r.isNone) = true
    · simp only [keyLoad, process_example, hruns, if_pos]
      omega
    · have hfalse : runs.any (fun r => r.isNone) = false := by
        rcases Bool.eq_false_or_eq_true (runs.any (fun r => r.isNone)) with hb | hb
        · exact absurd hb hruns
        · exact hb
      have hst : (process_example ex runs st).1 = st ++ [mkRecord ex runs] := by
        simp [process_example, hfalse]
      have hkey : recKey hsh (mkRecord ex runs) = exKey hsh ex := rfl
      simp only [keyLoad, hst, storeKeyCount_append_one, hkey]
      omega

/-- Helper: the accounting measure is non-increasing along whole runs. -/
theorem loopReach_keyLoad_le (hsh : String → String) (K : Finset String) (C : Nat)
    {s t : RunState} (hreach : LoopReach hsh K C s t) (k : String) :
    keyLoad hsh K t k ≤ keyLoad hsh K s k := by
  induction hreach with
  | refl => exact le_refl _
  | tail hab hbc ih => exact le_trans (loopStep_keyLoad_le hsh K C hbc k) ih

/-- C4 counterexample: the claim promises at most one record per key for
input collections that may contain duplicate keys, but processed_uuids is
loaded once (line 171) and never extended during the run, so two dataset
items sharing the key A, starting from an empty store, are both scheduled
and both persisted: a completed run whose store carries the key A twice. -/
theorem c4_counterexample :
    ∃ s : RunState,
      LoopReach id ∅ 1 (initState [⟨"A", "p1"⟩, ⟨"A", "p2"⟩] []) s ∧
      s.remaining = [] ∧ s.inFlight = [] ∧ storeKeyCount id s.store "A" = 2 := by
  have h1 : LoopStep id ∅ 1 (initState [⟨"A", "p1"⟩, ⟨"A", "p2"⟩] [])
      ⟨[⟨"A", "p2"⟩], [] ++ [⟨"A", "p1"⟩], [], [] ++ [⟨"A", "p1"⟩]⟩ :=
    LoopStep.schedule ⟨"A", "p1"⟩ [⟨"A", "p2"⟩] [] [] [] (by decide) (by decide)
  have h2 : LoopStep id ∅ 1
      ⟨[⟨"A", "p2"⟩], [] ++ [⟨"A", "p1"⟩], [], [] ++ [⟨"A", "p1"⟩]⟩
      ⟨[⟨"A", "p2"⟩], List.erase ([] ++ [⟨"A", "p1"⟩]) ⟨"A", "p1"⟩,
        (process_example ⟨"A", "p1"⟩ [some "t"] []).1, [] ++ [⟨"A", "p1"⟩]⟩ :=
    LoopStep.complete ⟨"A", "p1"⟩ [some "t"] [⟨"A", "p2"⟩] ([] ++ [⟨"A", "p1"⟩]) []
      ([] ++ [⟨"A", "p1"⟩]) (by decide)
  have h3 : LoopStep id ∅ 1
      ⟨[⟨"A", "p2"⟩], List.erase ([] ++ [⟨"A", "p1"⟩]) ⟨"A", "p1"⟩,
        (process_example ⟨"A", "p1"⟩ [some "t"] []).1, [] ++ [⟨"A", "p1"⟩]⟩
      ⟨[], List.erase ([] ++ [⟨"A", "p1"⟩]) ⟨"A", "p1"⟩ ++ [⟨"A", "p2"⟩],
        (process_example ⟨"A", "p1"⟩ [some "t"] []).1,
        ([] ++ [⟨"A", "p1"⟩]) ++ [⟨"A", "p2"⟩]⟩ :=
    LoopStep.schedule ⟨"A", "p2"⟩ [] (List.erase ([] ++ [⟨"A", "p1"⟩]) ⟨"A", "p1"⟩)
      ((process_example ⟨"A", "p1"⟩ [some "t"] []).1) ([] ++ [⟨"A", "p1"⟩])
      (by decide) (by decide)
  have h4 : LoopStep id ∅ 1
      ⟨[], List.erase ([] ++ [⟨"A", "p1"⟩]) ⟨"A", "p1"⟩ ++ [⟨"A", "p2"⟩],
        (process_example ⟨"A", "p1"⟩ [some "t"] []).1,
        ([] ++ [⟨"A", "p1"⟩]) ++ [⟨"A", "p2"⟩]⟩
      ⟨[], List.erase (List.erase ([] ++ [⟨"A", "p1"⟩]) ⟨"A", "p1"⟩ ++ [⟨"A", "p2"⟩]) ⟨"A", "p2"⟩,
        (process_example ⟨"A", "p2"⟩ [some "t"]
          ((process_example ⟨"A", "p1"⟩ [some "t"] []).1)).1,
        ([] ++ [⟨"A", "p1"⟩]) ++ [⟨"A", "p2"⟩]⟩ :=
    LoopStep.complete ⟨"A", "p2"⟩ [some "t"] []
      (List.erase ([] ++ [⟨"A", "p1"⟩]) ⟨"A", "p1"⟩ ++ [⟨"A", "p2"⟩])
      ((process_example ⟨"A", "p1"⟩ [some "t"] []).1)
      (([] ++ [⟨"A", "p1"⟩]) ++ [⟨"A", "p2"⟩]) (by decide)
  refine ⟨_, Relation.ReflTransGen.head h1 (Relation.ReflTransGen.head h2
    (Relation.ReflTransGen.head h3 (Relation.ReflTransGen.single h4))), rfl, by decide, by decide⟩

/-- C4 amended: each work-item key appears at most once in the output
store after the run, provided each key appears at most once in the input
collection, at most once among the prior store's records, and every prior
record's key is in the loaded processed set (as the startup scan
guarantees). For input collections with duplicate keys the guarantee
fails, the processed set never being updated during the run, as the
counterexample shows. -/
theorem c4_key_uniqueness (hsh : String → String) (K : Finset String) (C : Nat)
    (ds : List WorkItem) (r₀ : List TraceRecord) (s : RunState)
    (hds : ∀ k, itemKeyCount hsh ds k ≤ 1)
    (hr₀ : ∀ k, storeKeyCount hsh r₀ k ≤ 1)
    (hK : ∀ r ∈ r₀, recKey hsh r ∈ K)
    (hreach : LoopReach hsh K C (initState ds r₀) s) :
    ∀ k, storeKeyCount hsh s.store k ≤ 1 := by
  intro k
  have hmono := loopReach_keyLoad_le hsh K C hreach k
  have hinit : keyLoad hsh K (initState ds r₀) k ≤ 1 := by
    by_cases hk : k ∈ K
    · simp only [keyLoad, initState, if_pos hk, itemKeyCount, List.map_nil,
        List.count_nil]
      have := hr₀ k
      omega
    · have hzero : storeKeyCount hsh r₀ k = 0 := by
        rw [storeKeyCount, List.count_eq_zero]
        intro hmem
        rcases List.mem_map.mp hmem with ⟨r, hr, hrk⟩
        exact hk (hrk ▸ hK r hr)
      simp only [keyLoad, initState, if_neg hk, hzero, itemKeyCount, List.map_nil,
        List.count_nil]
      have := hds k
      rw [itemKeyCount] at this
      omega
  have hle : storeKeyCount hsh s.store k ≤ keyLoad hsh K s k := by
    rw [keyLoad]
    omega
  exact le_trans hle (le_trans hmono hinit)

/-- C4 amended witness: a two-item dataset with distinct keys A and B,
limit 2 and empty prior store; the state reached after scheduling and
completing both items has each key at most once in the store. -/
theorem c4_key_uniqueness_witness :
    itemKeyCount id [⟨"A", "pa"⟩, ⟨"B", "pb"⟩] "A" ≤ 1 ∧
    storeKeyCount id
      ((process_example ⟨"B", "pb"⟩ [some "t"]
        ((process_example ⟨"A", "pa"⟩ [some "t"] []).1)).1) "A" ≤ 1 := by
  have h1 : LoopStep id ∅ 2 (initState [⟨"A", "pa"⟩, ⟨"B", "pb"⟩] [])
      ⟨[⟨"B", "pb"⟩], [] ++ [⟨"A", "pa"⟩], [], [] ++ [⟨"A", "pa"⟩]⟩ :=
    LoopStep.schedule ⟨"A", "pa"⟩ [⟨"B", "pb"⟩] [] [] [] (by decide) (by decide)
  have h2 : LoopStep id ∅ 2
      ⟨[⟨"B", "pb"⟩], [] ++ [⟨"A", "pa"⟩], [], [] ++ [⟨"A", "pa"⟩]⟩
      ⟨[], ([] ++ [⟨"A", "pa"⟩]) ++ [⟨"B", "pb"⟩], [],
        ([] ++ [⟨"A", "pa"⟩]) ++ [⟨"B", "pb"⟩]⟩ :=
    LoopStep.schedule ⟨"B", "pb"⟩ [] ([] ++ [⟨"A", "pa"⟩]) [] ([] ++ [⟨"A", "pa"⟩])
      (by decide) (by decide)
  have h3 : LoopStep id ∅ 2
      ⟨[], ([] ++ [⟨"A", "pa"⟩]) ++ [⟨"B", "pb"⟩], [],
        ([] ++ [⟨"A", "pa"⟩]) ++ [⟨"B", "pb"⟩]⟩
      ⟨[], List.erase (([] ++ [⟨"A", "pa"⟩]) ++ [⟨"B", "pb"⟩]) ⟨"A", "pa"⟩,
        (process_example ⟨"A", "pa"⟩ [some "t"] []).1,
        ([] ++ [⟨"A", "pa"⟩]) ++ [⟨"B", "pb"⟩]⟩ :=
    LoopStep.complete ⟨"A", "pa"⟩ [some "t"] []
      ((([] ++ [⟨"A", "pa"⟩]) ++ [⟨"B", "pb"⟩]))
      [] (([] ++ [⟨"A", "pa"⟩]) ++ [⟨"B", "pb"⟩]) (by decide)
  have h4 : LoopStep id ∅ 2
      ⟨[], List.erase (([] ++ [⟨"A", "pa"⟩]) ++ [⟨"B", "pb"⟩]) ⟨"A", "pa"⟩,
        (process_example ⟨"A", "pa"⟩ [some "t"] []).1,
        ([] ++ [⟨"A", "pa"⟩]) ++ [⟨"B", "pb"⟩]⟩
      ⟨[], List.erase (List.erase (([] ++ [⟨"A", "pa"⟩]) ++ [⟨"B", "pb"⟩]) ⟨"A", "pa"⟩)
          ⟨"B", "pb"⟩,
        (process_example ⟨"B", "pb"⟩ [some "t"]
          ((process_example ⟨"A", "pa"⟩ [some "t"] []).1)).1,
        ([] ++ [⟨"A", "pa"⟩]) ++ [⟨"B", "pb"⟩]⟩ :=
    LoopStep.complete ⟨"B", "pb"⟩ [some "t"] []
      (List.erase (([] ++ [⟨"A", "pa"⟩]) ++ [⟨"B", "pb"⟩]) ⟨"A", "pa"⟩)
      ((process_example ⟨"A", "pa"⟩ [some "t"] []).1)
      (([] ++ [⟨"A", "pa"⟩]) ++ [⟨"B", "pb"⟩]) (by decide)
  have hreach : LoopReach id ∅ 2 (initState [⟨"A", "pa"⟩, ⟨"B", "pb"⟩] [])
      ⟨[], List.erase (List.erase (([] ++ [⟨"A", "pa"⟩]) ++ [⟨"B", "pb"⟩]) ⟨"A", "pa"⟩)
          ⟨"B", "pb"⟩,
        (process_example ⟨"B", "pb"⟩ [some "t"]
          ((process_example ⟨"A", "pa"⟩ [some "t"] []).1)).1,
        ([] ++ [⟨"A", "pa"⟩]) ++ [⟨"B", "pb"⟩]⟩ :=
    Relation.ReflTransGen.head h1 (Relation.ReflTransGen.head h2
      (Relation.ReflTransGen.head h3 (Relation.ReflTransGen.single h4)))
  refine ⟨by decide, ?_⟩
  exact c4_key_uniqueness id ∅ 2 [⟨"A", "pa"⟩, ⟨"B", "pb"⟩] [] _
    (by
      intro k
      by_cases hA : k = "A"
      · subst hA; decide
      · by_cases hB : k = "B"
        · subst hB; decide
        · have hz : itemKeyCount id [⟨"A", "pa"⟩, ⟨"B", "pb"⟩] k = 0 := by
            rw [itemKeyCount, List.count_eq_zero]
            simp [exKey, List.mem_cons, hA, hB]
          simp [hz])
    (by intro k; simp [storeKeyCount])
    (by intro r hr; simp at hr)
    hreach "A"

/-- Modelled from the spec: the rewards module (open_r1.rewards) is not
under src/, only src/tests/test_rewards.py exercises it. Python's
str.lower followed by str.split() (split on whitespace runs, dropping
empty pieces), at the character level: the accumulator holds the current
word reversed. -/
def splitWsAux (cur : List Char) : List Char → List (List Char)
  | [] => if cur.isEmpty then [] else [cur.reverse]
  | c :: cs =>
    if c.isWhitespace then
      if cur.isEmpty then splitWsAux [] cs
      else cur.reverse :: splitWsAux [] cs
    else splitWsAux (c :: cur) cs

/-- Modelled from the spec: completion.lower().split() — the
whitespace-delimited, lowercased words of a completion. -/
def pyWords (s : String) : List (List Char) :=
  splitWsAux [] (s.toList.map Char.toLower)

/-- Modelled from the spec: the repetition-penalty scorer body.
Completions with fewer words than the n-gram size score 0.0; otherwise the
n-grams are the sliding windows of ngramSize consecutive words and the
score is max_penalty scaled by one minus the ratio of unique n-grams to
total n-grams (spec section 4.4 and section 8 testable property on
repetition_penalty_reward). -/
def repetition_penalty_score (ngramSize : Nat) (maxPenalty : ℚ) (content : String) : ℚ :=
  let ws := pyWords content
  if ws.length < ngramSize then 0
  else
    let grams := (List.range (ws.length + 1 - ngramSize)).map
      (fun i => (ws.drop i).take ngramSize)
    (1 - (grams.dedup.length : ℚ) / (grams.length : ℚ)) * maxPenalty

/-- Modelled from the spec: get_repetition_penalty_reward validates its
configuration eagerly, at scorer-construction time: a non-negative
max_penalty is rejected with a descriptive ValueError (the message format
follows the one asserted in test_rewards.py line 118) before any
completion is scored; otherwise the bound scorer is returned. Scoring a
batch applies the returned function to each completion independently. -/
def get_repetition_penalty_reward (ngramSize : Nat) (maxPenalty : ℚ) :
    Except String (String → ℚ) :=
  if 0 ≤ maxPenalty then
    Except.error ("max_penalty " ++ toString maxPenalty ++ " should not be positive")
  else
    Except.ok (fun content => repetition_penalty_score ngramSize maxPenalty content)

/-- C7: the claim's formula is right and the test assertions are wrong.
The spec-modelled scorer at the claim's own example gives
repetition_penalty_score 2 (-1) "this this this this this" =
(1 - 1/4) * (-1) = -0.75, exactly as the inline comment of
test_full_repetition (src/tests/test_rewards.py line 132) computes, and a
completion shorter than the n-gram size scores 0.0; yet the assertion on
line 133 demands -0.8, a value the claimed (and commented, and specified)
formula cannot produce: -0.75 and -0.8 differ. -/
theorem c7_repetition_formula :
    repetition_penalty_score 2 (-1) "this this this this this" = -(3 / 4) ∧
    repetition_penalty_score 3 (-1) "two words" = 0 ∧
    (-(3 / 4) : ℚ) ≠ -(8 / 10) := by
  refine ⟨?_, ?_, by norm_num⟩
  · have h2 : ((List.range ((pyWords "this this this this this").length + 1 - 2)).map
        (fun i => ((pyWords "this this this this this").drop i).take 2)).dedup.length = 1 := by
      decide
    have h3 : ((List.range ((pyWords "this this this this this").length + 1 - 2)).map
        (fun i => ((pyWords "this this this this this").drop i).take 2)).length = 4 := by
      decide
    simp only [repetition_penalty_score]
    rw [if_neg (by decide : ¬ (pyWords "this this this this this").length < 2), h2, h3]
    norm_num
  · simp only [repetition_penalty_score]
    rw [if_pos (by decide : (pyWords "two words").length < 3)]

/-- C8: eager misconfiguration rejection. Constructing the
repetition-penalty scorer with a non-negative max_penalty yields the
descriptive configuration error at construction time, before any
completion is scored; with a negative max_penalty construction succeeds
and returns the bound scorer. -/
theorem c8_eager_rejection (ngramSize : Nat) (maxPenalty : ℚ) :
    (0 ≤ maxPenalty → get_repetition_penalty_reward ngramSize maxPenalty =
      Except.error ("max_penalty " ++ toString maxPenalty ++ " should not be positive")) ∧
    (maxPenalty < 0 → get_repetition_penalty_reward ngramSize maxPenalty =
      Except.ok (fun content => repetition_penalty_score ngramSize maxPenalty content)) := by
  constructor
  · intro h
    simp [get_repetition_penalty_reward, if_pos h]
  · intro h
    rw [get_repetition_penalty_reward, if_neg (not_le.mpr h)]

/-- C8 witness: max_penalty 1.5 is rejected with the very message the test
asserts, and max_penalty -1 constructs the scorer. -/
theorem c8_eager_rejection_witness :
    (0 ≤ (3 / 2 : ℚ) ∧ get_repetition_penalty_reward 2 (3 / 2) =
      Except.error ("max_penalty " ++ toString (3 / 2 : ℚ) ++ " should not be positive")) ∧
    ((-1 : ℚ) < 0 ∧ get_repetition_penalty_reward 2 (-1) =
      Except.ok (fun content => repetition_penalty_score 2 (-1) content)) :=
  ⟨⟨by norm_num, (c8_eager_rejection 2 (3 / 2)).1 (by norm_num)⟩,
    ⟨by norm_num, (c8_eager_rejection 2 (-1)).2 (by norm_num)⟩⟩

/-- Modelled from the spec: reasoning_steps_reward counts the step markers
recognized by a fixed detection rule (the rule itself lives in the missing
rewards module; it is abstracted as the countMarkers parameter) and
returns the fraction of that count over 3, capped at 1.0. -/
def reasoning_steps_reward (countMarkers : String → Nat) (content : String) : ℚ :=
  min 1 ((countMarkers content : ℚ) / 3)

/-- C9: reasoning-steps reward formula. For every completion and every
step-detection rule, the reward is min(1.0, step_count / 3); in particular
one detected step yields 1/3, two yield 2/3, and three or more yield
exactly 1.0. -/
theorem c9_reasoning_steps (countMarkers : String → Nat) (content : String) :
    reasoning_steps_reward countMarkers content =
      min 1 ((countMarkers content : ℚ) / 3) ∧
    (countMarkers content = 1 → reasoning_steps_reward countMarkers content = 1 / 3) ∧
    (countMarkers content = 2 → reasoning_steps_reward countMarkers content = 2 / 3) ∧
    (3 ≤ countMarkers content → reasoning_steps_reward countMarkers content = 1) := by
  refine ⟨rfl, ?_, ?_, ?_⟩
  · intro h
    rw [reasoning_steps_reward, h]
    norm_num
  · intro h
    rw [reasoning_steps_reward, h]
    norm_num
  · intro h
    rw [reasoning_steps_reward]
    have h3 : (3 : ℚ) ≤ (countMarkers content : ℚ) := by exact_mod_cast h
    have hdiv : (1 : ℚ) ≤ (countMarkers content : ℚ) / 3 := by
      rw [le_div_iff₀ (by norm_num : (0 : ℚ) < 3)]
      linarith
    exact min_eq_left hdiv

/-- C9 witness: a detector reporting three steps on a concrete completion
earns the full reward 1.0, and one reporting a single step earns 1/3. -/
theorem c9_reasoning_steps_witness :
    (3 ≤ (fun _ : String => 3) "Step 1: a Step 2: b Step 3: c" ∧
      reasoning_steps_reward (fun _ => 3) "Step 1: a Step 2: b Step 3: c" = 1) ∧
    reasoning_steps_reward (fun _ => 1) "Step 1: only" = 1 / 3 :=
  ⟨⟨le_refl 3, (c9_reasoning_steps (fun _ => 3) "Step 1: a Step 2: b Step 3: c").2.2.2
      (le_refl 3)⟩,
    (c9_reasoning_steps (fun _ => 1) "Step 1: only").2.1 rfl⟩
